import Mathlib

/-!
Verification development for the ghost-playwright worker
(`src/interfaces.ts` types/schemas and the Hono app in the main worker file).

The embedding models:
  * the KV stores (job records and artifacts) as association lists where a
    `put` conses a fresh entry and a lookup returns the most recent write
    (last-write-wins, as in Workers KV);
  * the action data model, `getLocator`, `getActionDescription`, and the
    dispatch performed by the `switch` in `executePlaywrightSequence`,
    including JavaScript truthiness of the optional string fields;
  * `executePlaywrightSequence` itself as a function over an explicit
    browser environment (`LoopEnv`/`BrowserEnv`) that decides the outcome of
    each browser call (launch, per-action operation, `page.screenshot`,
    `tracing.*`, `browser.close`, `fs.readFile`), with storage writes made
    explicit.  Wall-clock timestamps/durations and the network counters are
    real-time observations and are left out of the model.
  * the route handlers for job submission (its write sequence), GET job,
    GET trace, GET screenshot and DELETE job.
-/

namespace Ghost

/-- Association-list key-value store; `kvPut` conses so the most recent
write wins on lookup, matching Workers KV `put` overwrite semantics. -/
abbrev KV (α : Type) : Type := List (String × α)

/-- KV `put`: record the new binding; reads see the latest write. -/
def kvPut {α : Type} (kv : KV α) (k : String) (v : α) : KV α :=
  (k, v) :: kv

/-- KV `get`: most recent binding for the key, if any. -/
def kvGet {α : Type} : KV α → String → Option α
  | [], _ => none
  | (k', v) :: rest, k => if k' == k then some v else kvGet rest k

/-- KV `delete`: remove every binding of the key. -/
def kvDelete {α : Type} (kv : KV α) (k : String) : KV α :=
  kv.filter (fun p => !(p.1 == k))

/-- Character-level model of JavaScript `String.prototype.startsWith` /
KV list `prefix` matching. -/
def strStartsWith (s pre : String) : Bool :=
  pre.data.isPrefixOf s.data

/-- KV `list({ prefix })`: the keys whose name begins with the prefix. -/
def kvList {α : Type} (kv : KV α) (pre : String) : List String :=
  (kv.filter (fun p => strStartsWith p.1 pre)).map Prod.fst

/-- Job lifecycle states (`Job.status`). -/
inductive JobStatus : Type
  | pending
  | running
  | completed
  | failed
  deriving DecidableEq, Repr

/-- Result statuses (`JobResult.status`). -/
inductive ResStatus : Type
  | success
  | fail
  deriving DecidableEq, Repr

/-- Predicate for the terminal job states. -/
def JobStatus.isTerminal : JobStatus → Bool
  | .completed => true
  | .failed => true
  | _ => false

/-- A JavaScript thrown value: either an `Error` instance (with message and
optional stack) or some other value. -/
inductive Thrown : Type
  | jsError (message : String) (stackStr : Option String)
  | nonError
  deriving DecidableEq, Repr

/-- Message extraction `error instanceof Error ? error.message : dflt`. -/
def Thrown.msgOr : Thrown → String → String
  | .jsError m _, _ => m
  | .nonError, d => d

/-- Message extraction with the runner's default `'Unknown error'`. -/
def Thrown.msg (e : Thrown) : String := e.msgOr "Unknown error"

/-- Stack extraction `error instanceof Error ? error.stack : undefined`. -/
def Thrown.stackOf : Thrown → Option String
  | .jsError _ s => s
  | .nonError => none

/-- Action kinds (`actionSchema.type`). -/
inductive ActionType : Type
  | click
  | fill
  | wait
  | screenshot
  | goto
  | scroll
  | expectA
  deriving DecidableEq, Repr

/-- Printed name of an action type, as used in `getActionDescription`. -/
def actionTypeStr : ActionType → String
  | .click => "click"
  | .fill => "fill"
  | .wait => "wait"
  | .screenshot => "screenshot"
  | .goto => "goto"
  | .scroll => "scroll"
  | .expectA => "expect"

/-- The `getByText` field: either a plain string or `{ text, exact? }`. -/
inductive GetByTextArg : Type
  | plain (s : String)
  | withOpts (text : String) (exact : Option Bool)
  deriving DecidableEq, Repr

/-- The `Action` record of `interfaces.ts`: one loosely-typed record with
optional locator fields and action-specific fields.  `x`/`y` are modelled
as integers (the claims under study do not depend on non-integral
coordinates). -/
structure Action : Type where
  type : ActionType
  selector : Option String := none
  getByLabel : Option String := none
  getByText : Option GetByTextArg := none
  getByName : Option String := none
  text : Option String := none
  timeout : Option Nat := none
  url : Option String := none
  x : Option Int := none
  y : Option Int := none
  toContainText : Option String := none
  deriving DecidableEq, Repr

/-- JavaScript truthiness of an optional string: `undefined` and the empty
string are falsy. -/
def truthyStr : Option String → Bool
  | none => false
  | some s => !(s == "")

/-- JavaScript truthiness of the `getByText` field: a string is truthy iff
non-empty; the object form is always truthy. -/
def truthyText : Option GetByTextArg → Bool
  | none => false
  | some (.plain s) => !(s == "")
  | some (.withOpts _ _) => true

/-- A resolved Playwright locator, by the page call that produced it. -/
inductive Locator : Type
  | byLabel (s : String)
  | byText (text : String) (exact : Option Bool)
  | byRoleTextbox (nameArg : String)
  | bySelector (sel : String)
  deriving DecidableEq, Repr

/-- Translation of `getLocator(page, action)`: each `if (field)` test is
JavaScript truthiness, so empty-string fields fall through; a null result
is `none`. -/
def getLocator (action : Action) : Option Locator :=
  if truthyStr action.getByLabel then
    action.getByLabel.map Locator.byLabel
  else if truthyText action.getByText then
    action.getByText.map fun t =>
      match t with
      | .plain s => Locator.byText s none
      | .withOpts s e => Locator.byText s e
  else if truthyStr action.getByName then
    action.getByName.map Locator.byRoleTextbox
  else if truthyStr action.selector then
    action.selector.map Locator.bySelector
  else
    none

/-- Wrap a string in double quotes, as the template literals in
`getActionDescription` do. -/
def quoteStr (s : String) : String := "\"" ++ s ++ "\""

/-- Translation of `getActionDescription(action)`. -/
def getActionDescription (action : Action) : String :=
  let locatorDesc :=
    if truthyStr action.getByLabel then
      "getByLabel(" ++ quoteStr (action.getByLabel.getD "") ++ ")"
    else if truthyText action.getByText then
      let textValue :=
        match action.getByText with
        | some (.plain s) => s
        | some (.withOpts t _) => t
        | none => ""
      "getByText(" ++ quoteStr textValue ++ ")"
    else if truthyStr action.getByName then
      "getByName(" ++ quoteStr (action.getByName.getD "") ++ ")"
    else if truthyStr action.selector then
      "locator(" ++ quoteStr (action.selector.getD "") ++ ")"
    else ""
  let actionDesc := actionTypeStr action.type
  let actionDesc :=
    if truthyStr action.text then actionDesc ++ " " ++ quoteStr (action.text.getD "")
    else actionDesc
  let actionDesc :=
    if truthyStr action.url then actionDesc ++ " " ++ action.url.getD ""
    else actionDesc
  if locatorDesc == "" then actionDesc else actionDesc ++ " on " ++ locatorDesc

/-- The browser operation selected by the `switch (action.type)` in
`executePlaywrightSequence`, before it is performed. -/
inductive StepOp : Type
  | gotoUrl (url : String)
  | gotoNoop
  | clickLoc (l : Locator) (t : Option Nat)
  | clickXY (x y : Int)
  | clickNoop
  | fillLoc (l : Locator) (textArg : String) (t : Option Nat)
  | fillNoop
  | scrollLoc (l : Locator)
  | scrollXY (x y : Int)
  | scrollNoop
  | waitMs (ms : Nat)
  | expectAssert (l : Locator) (expected : String)
  | expectNullFirst
  | expectNoop
  | shoot
  deriving DecidableEq, Repr

/-- Translation of the `switch (action.type)` dispatch.  `expectNullFirst`
marks the path `getLocator(page, action).first()` taken with a null
locator, which raises a TypeError at runtime. -/
def dispatchOp (action : Action) : StepOp :=
  match action.type with
  | .goto =>
    if truthyStr action.url then .gotoUrl (action.url.getD "") else .gotoNoop
  | .click =>
    match getLocator action with
    | some l => .clickLoc l action.timeout
    | none =>
      match action.x, action.y with
      | some x, some y => .clickXY x y
      | _, _ => .clickNoop
  | .fill =>
    match getLocator action with
    | some l =>
      if truthyStr action.text then .fillLoc l (action.text.getD "") action.timeout
      else .fillNoop
    | none => .fillNoop
  | .scroll =>
    match getLocator action with
    | some l => .scrollLoc l
    | none =>
      match action.x, action.y with
      | some x, some y => .scrollXY x y
      | _, _ => .scrollNoop
  | .wait =>
    .waitMs (match action.timeout with
      | some t => if t == 0 then 1000 else t
      | none => 1000)
  | .expectA =>
    if truthyStr action.toContainText then
      match getLocator action with
      | some l => .expectAssert l (action.toContainText.getD "")
      | none => .expectNullFirst
    else .expectNoop
  | .screenshot => .shoot

/-- Device classes. -/
inductive DeviceType : Type
  | desktop
  | mobile
  | tablet
  deriving DecidableEq, Repr

/-- Browser engines. -/
inductive BrowserType : Type
  | chromium
  | firefox
  | webkit
  deriving DecidableEq, Repr

/-- Per-job options (`jobConfigSchema.options`). -/
structure JobOptions : Type where
  timeout : Option Nat := none
  viewport : Option (Nat × Nat) := none
  userAgent : Option String := none
  generateTrace : Option Bool := none
  deriving DecidableEq, Repr

/-- The validated job configuration. -/
structure JobConfig : Type where
  deviceType : DeviceType
  browserType : BrowserType
  actions : List Action
  options : Option JobOptions := none
  deriving DecidableEq, Repr

/-- Truthiness of `config.options?.generateTrace`. -/
def JobConfig.wantsTrace (c : JobConfig) : Bool :=
  (c.options.bind (fun o => o.generateTrace)).getD false

/-- Storage key of a screenshot artifact, from `storeScreenshot`. -/
def screenshotKey (jobId screenshotId : String) : String :=
  "screenshot:" ++ jobId ++ ":" ++ screenshotId ++ ".png"

/-- Storage key of the trace artifact, from `storeTrace`. -/
def traceKey (jobId : String) : String :=
  "trace:" ++ jobId

/-- Storage key of a job record, from `storeJob`/`getJob`. -/
def jobKey (jobId : String) : String :=
  "job:" ++ jobId

/-- Retrieval path returned to clients for a stored screenshot. -/
def screenshotPath (jobId screenshotId : String) : String :=
  "/api/v1/jobs/" ++ jobId ++ "/screenshots/" ++ screenshotId ++ ".png"

/-- The public trace-viewer URL computed on success when tracing is on. -/
def traceViewerUrlStr (jobId : String) : String :=
  "https://trace.playwright.dev/?trace=https://ghost-playwright.rakhimd.workers.dev/api/v1/jobs/"
    ++ jobId ++ "/trace"

/-- Lowercase hexadecimal digit. -/
def isLowerHex (c : Char) : Bool :=
  c.isDigit || ('a' ≤ c && c ≤ 'f')

/-- Shape of a `crypto.randomUUID()` result: 36 characters, dashes at
positions 8, 13, 18 and 23, lowercase hex digits elsewhere. -/
def isRandomUUID (s : String) : Bool :=
  s.length == 36 &&
  (List.range 36).all (fun i =>
    if i == 8 || i == 13 || i == 18 || i == 23 then s.data.getD i ' ' == '-'
    else isLowerHex (s.data.getD i ' '))

/-- Model of `storeScreenshot`: put the bytes under the derived key and
return the key. -/
def storeScreenshot (jobId screenshotId : String) (imageData : String)
    (kv : KV String) : String × KV String :=
  (screenshotKey jobId screenshotId,
   kvPut kv (screenshotKey jobId screenshotId) imageData)

/-- Model of `storeTrace`: put the bytes under `trace:{jobId}` and return
the key. -/
def storeTrace (jobId : String) (traceData : String)
    (kv : KV String) : String × KV String :=
  (traceKey jobId, kvPut kv (traceKey jobId) traceData)

/-- One `TraceStep` record.  The wall-clock `timestamp` and `duration`
fields are real-time observations and are not modelled. -/
structure StepRec : Type where
  action : String
  success : Bool
  error : Option String := none
  screenshot : Option String := none
  deriving DecidableEq, Repr

/-- The `statistics` block of a success result.  The numeric timing and
network counters are real-time observations and are not modelled. -/
structure JobStatistics : Type where
  screenshots : List String
  finalUrl : String
  deriving DecidableEq, Repr

/-- The `error` block of a fail result. -/
structure JobError : Type where
  message : String
  stackStr : Option String := none
  screenshot : Option String := none
  deriving DecidableEq, Repr

/-- The `trace` block of a result. -/
structure JobTrace : Type where
  steps : List StepRec
  traceFile : Option String := none
  traceViewerUrl : Option String := none
  deriving DecidableEq, Repr

/-- A `JobResult`. -/
structure JobResult : Type where
  status : ResStatus
  statistics : Option JobStatistics := none
  error : Option JobError := none
  trace : Option JobTrace := none
  deriving DecidableEq, Repr

/-- Environment consulted by the action loop: outcome of the browser
operation of each action index, outcome and bytes of each
`page.screenshot()` call (indexed by how many captures happened before
it), the `crypto.randomUUID()` stream, and the TypeError raised by
calling `.first()` on a null locator. -/
structure LoopEnv : Type where
  stepRun : Nat → Option Thrown
  pageShot : Nat → Except Thrown String
  uuid : Nat → String
  nullFirstTypeError : Thrown

/-- Environment of a whole `executePlaywrightSequence` run: the loop
environment plus the outcomes of launch, `newPage`, `tracing.start`,
`tracing.stop`, the success-path `browser.close()`, the catch-path
`browser.close()` (whose rejection the source discards via `.catch`),
`fs.readFile('trace.zip')`, and the final `page.url()`. -/
structure BrowserEnv : Type where
  loopEnv : LoopEnv
  launchRes : Option Thrown
  newPageRes : Option Thrown
  traceStartRes : Option Thrown
  traceStopRes : Option Thrown
  closeRes : Option Thrown
  closeCatchRes : Option Thrown
  readTraceRes : Except Thrown String
  finalUrl : String

/-- Mutable state accumulated by the action loop: the artifacts KV, the
`screenshots` path array, the `trace.steps` array, and the number of
`page.screenshot()` calls made so far. -/
structure RunSt : Type where
  kv : KV String
  shots : List String
  steps : List StepRec
  nCap : Nat
  deriving DecidableEq, Repr

/-- Initial loop state. -/
def initSt (kv0 : KV String) : RunSt :=
  { kv := kv0, shots := [], steps := [], nCap := 0 }

/-- Trace step recorded after a successful action.  The source declares
`stepScreenshot` but never assigns it, so the screenshot field of a
success step is always absent. -/
def successStep (action : Action) : StepRec :=
  { action := getActionDescription action, success := true }

/-- Trace step recorded in the per-step catch block. -/
def failStep (action : Action) (e : Thrown) (shot : Option String) : StepRec :=
  { action := getActionDescription action, success := false,
    error := some e.msg, screenshot := shot }

/-- Effect and outcome of the `try` body for one action: the screenshot
case captures, stores and records a path; the null-locator expect path
throws the TypeError; the no-op cases succeed without a browser call;
every other case performs one browser operation whose outcome the
environment decides. -/
def runOp (env : LoopEnv) (jobId : String) (i : Nat) (action : Action)
    (st : RunSt) : RunSt × Option Thrown :=
  match dispatchOp action with
  | .shoot =>
    match env.pageShot st.nCap with
    | .ok bytes =>
      let sid := env.uuid st.nCap
      ({ st with kv := (storeScreenshot jobId sid bytes st.kv).2,
                 shots := st.shots ++ [screenshotPath jobId sid],
                 nCap := st.nCap + 1 }, none)
    | .error e => ({ st with nCap := st.nCap + 1 }, some e)
  | .expectNullFirst => (st, some env.nullFirstTypeError)
  | .gotoNoop => (st, none)
  | .clickNoop => (st, none)
  | .fillNoop => (st, none)
  | .scrollNoop => (st, none)
  | .expectNoop => (st, none)
  | _ => (st, env.stepRun i)

/-- The per-step catch block: attempt a diagnostic screenshot (its own
failure yields null and is discarded), then append a failed trace step
carrying the original error's message. -/
def catchStep (env : LoopEnv) (jobId : String) (action : Action) (e : Thrown)
    (st : RunSt) : RunSt :=
  match env.pageShot st.nCap with
  | .ok bytes =>
    let sid := env.uuid st.nCap
    { st with kv := (storeScreenshot jobId sid bytes st.kv).2,
              nCap := st.nCap + 1,
              steps := st.steps ++ [failStep action e (some (screenshotPath jobId sid))] }
  | .error _ =>
    { st with nCap := st.nCap + 1,
              steps := st.steps ++ [failStep action e none] }

/-- The action loop (`for (let i = 0; ...)`): on success append a success
step and continue; on failure run the catch block and rethrow, aborting
the remaining actions. -/
def runLoop (env : LoopEnv) (jobId : String) :
    List Action → Nat → RunSt → RunSt × Option Thrown
  | [], _, st => (st, none)
  | action :: rest, i, st =>
    match runOp env jobId i action st with
    | (st', none) =>
      runLoop env jobId rest (i + 1) { st' with steps := st'.steps ++ [successStep action] }
    | (st', some e) => (catchStep env jobId action e st', some e)

/-- Outcome of a whole run: the returned `JobResult`, the final artifacts
KV, how many times `browser.close()` was invoked, and whether a browser
was launched at all. -/
structure RunOutcome : Type where
  result : JobResult
  kv : KV String
  closeCalls : Nat
  browserLaunched : Bool

/-- The outer catch block of `executePlaywrightSequence`: best-effort
screenshot of the current page (failures swallowed by the surrounding
try/catch, and skipped when no page was opened), a swallowed
`browser.close().catch(() => {})` when a browser exists, then a fail
result carrying the caught error's message and stack and the trace
accumulated so far. -/
def outerCatch (env : BrowserEnv) (jobId : String) (e : Thrown) (st : RunSt)
    (pageOpen browserOpen : Bool) (priorClose : Nat) : RunOutcome :=
  let shotStep :
      Option String × KV String :=
    if pageOpen then
      match env.loopEnv.pageShot st.nCap with
      | .ok bytes =>
        let sid := env.loopEnv.uuid st.nCap
        (some (screenshotPath jobId sid), (storeScreenshot jobId sid bytes st.kv).2)
      | .error _ => (none, st.kv)
    else (none, st.kv)
  { result :=
      { status := .fail,
        error := some { message := e.msg, stackStr := e.stackOf, screenshot := shotStep.1 },
        trace := some { steps := st.steps } },
    kv := shotStep.2,
    closeCalls := priorClose + (if browserOpen then 1 else 0),
    browserLaunched := browserOpen }

/-- The success return value of `executePlaywrightSequence`. -/
def successResult (st : RunSt) (finalUrl : String) (viewer : Option String) : JobResult :=
  { status := .success,
    statistics := some { screenshots := st.shots, finalUrl := finalUrl },
    trace := some { steps := st.steps, traceViewerUrl := viewer } }

/-- Translation of `executePlaywrightSequence`: launch, open a page,
optionally start tracing, run the action loop, then on success stop
tracing, read the final URL, close the browser, persist the trace bundle
and compute the viewer URL when tracing was requested, and return the
success result; any thrown error lands in the outer catch. -/
def executeSeq (env : BrowserEnv) (jobId : String) (config : JobConfig)
    (kv0 : KV String) : RunOutcome :=
  let st0 := initSt kv0
  match env.launchRes with
  | some e => outerCatch env jobId e st0 false false 0
  | none =>
    match env.newPageRes with
    | some e => outerCatch env jobId e st0 false true 0
    | none =>
      match (if config.wantsTrace then env.traceStartRes else none) with
      | some e => outerCatch env jobId e st0 true true 0
      | none =>
        match runLoop env.loopEnv jobId config.actions 0 st0 with
        | (st, some e) => outerCatch env jobId e st true true 0
        | (st, none) =>
          match (if config.wantsTrace then env.traceStopRes else none) with
          | some e => outerCatch env jobId e st true true 0
          | none =>
            match env.closeRes with
            | some e => outerCatch env jobId e st true true 1
            | none =>
              if config.wantsTrace then
                match env.readTraceRes with
                | .error e => outerCatch env jobId e st true true 1
                | .ok bytes =>
                  { result := successResult st env.finalUrl (some (traceViewerUrlStr jobId)),
                    kv := (storeTrace jobId bytes st.kv).2,
                    closeCalls := 1,
                    browserLaunched := true }
              else
                { result := successResult st env.finalUrl none,
                  kv := st.kv,
                  closeCalls := 1,
                  browserLaunched := true }

/-- A stored `Job` record. -/
structure JobRec : Type where
  id : String
  status : JobStatus
  createdAt : String
  completedAt : Option String := none
  config : JobConfig
  result : Option JobResult := none
  deriving DecidableEq, Repr

/-- The record first persisted by the submit handler. -/
def pendingJob (jobId createdAt : String) (config : JobConfig) : JobRec :=
  { id := jobId, status := .pending, createdAt := createdAt, config := config }

/-- The `{ ...job, status: 'running' }` overwrite. -/
def runningJob (job : JobRec) : JobRec :=
  { job with status := .running }

/-- The terminal overwrite written after the runner returns. -/
def completedJob (job : JobRec) (completedAt : String) (result : JobResult) : JobRec :=
  { job with
    status := match result.status with
      | .success => .completed
      | .fail => .failed,
    completedAt := some completedAt,
    result := some result }

/-- The terminal overwrite written by the background task's own catch
block (reached only when a storage call or other infrastructure step of
the task throws); its synthesized result has no statistics and no trace
and defaults the message to `'Test execution failed'`. -/
def catchFailedJob (job : JobRec) (completedAt : String) (e : Thrown) : JobRec :=
  { job with
    status := .failed,
    completedAt := some completedAt,
    result := some
      { status := .fail,
        error := some { message := e.msgOr "Test execution failed", stackStr := e.stackOf } } }

/-- The sequence of job records written to the job store by the submit
handler and its background task, with storage writes modelled as
reliable: the pending snapshot, the running overwrite, and the terminal
overwrite built from the runner's result. -/
def jobWriteSeq (env : BrowserEnv) (jobId createdAt completedAt : String)
    (config : JobConfig) (kv0 : KV String) : List JobRec :=
  let job := pendingJob jobId createdAt config
  [job, runningJob job, completedJob job completedAt ((executeSeq env jobId config kv0).result)]

/-- Every form of job record the controller ever passes to `storeJob`,
including the background task's catch-path overwrite. -/
def persistedForms (env : BrowserEnv) (jobId createdAt completedAt : String)
    (config : JobConfig) (kv0 : KV String) (e : Thrown) : List JobRec :=
  let job := pendingJob jobId createdAt config
  [job, runningJob job,
   completedJob job completedAt ((executeSeq env jobId config kv0).result),
   catchFailedJob job completedAt e]

/-- The GET job handler: fetch by id, `none` models the 404 branch. -/
def getJobHandler (jobId : String) (jobs : KV JobRec) : Option JobRec :=
  kvGet jobs (jobKey jobId)

/-- The GET trace handler: direct blob fetch of `trace:{jobId}`. -/
def getTraceHandler (jobId : String) (artifacts : KV String) : Option String :=
  kvGet artifacts (traceKey jobId)

/-- The GET screenshot handler: the URL's `:screenshotId` parameter (which
includes `.png`) is spliced into `screenshot:{jobId}:{screenshotId}`. -/
def getScreenshotHandler (jobId screenshotIdParam : String)
    (artifacts : KV String) : Option String :=
  kvGet artifacts ("screenshot:" ++ jobId ++ ":" ++ screenshotIdParam)

/-- The two persistent stores the routes touch. -/
structure Stores : Type where
  jobs : KV JobRec
  artifacts : KV String
  deriving DecidableEq, Repr

/-- Responses of the DELETE handler. -/
inductive DeleteResp : Type
  | badRequest
  | notFound
  | ok
  deriving DecidableEq, Repr

/-- The DELETE job handler: reject ids that are falsy or do not start with
`'job_'` with 400; 404 when the record is absent; otherwise delete the job
record and the trace artifact, then list and delete every artifact key
prefixed by `screenshot:{jobId}`. -/
def deleteJobHandler (jobId : String) (st : Stores) : DeleteResp × Stores :=
  if jobId == "" || !(strStartsWith jobId "job_") then (.badRequest, st)
  else
    match kvGet st.jobs (jobKey jobId) with
    | none => (.notFound, st)
    | some _ =>
      let jobs' := kvDelete st.jobs (jobKey jobId)
      let arts1 := kvDelete st.artifacts (traceKey jobId)
      let keys := kvList arts1 ("screenshot:" ++ jobId)
      let arts2 := keys.foldl kvDelete arts1
      (.ok, { jobs := jobs', artifacts := arts2 })

/-- Split a character list at `'/'` separators, accumulator-style. -/
def splitSlashAux : List Char → List Char → List (List Char)
  | [], acc => [acc.reverse]
  | c :: cs, acc =>
    if c = '/' then acc.reverse :: splitSlashAux cs [] else splitSlashAux cs (c :: acc)

/-- Split a character list at `'/'`. -/
def splitSlash (l : List Char) : List (List Char) :=
  splitSlashAux l []

/-- Router-level extraction of the `:jobId` and `:screenshotId` parameters
of `GET /api/v1/jobs/:jobId/screenshots/:screenshotId` from a request
path, by splitting the path into `/`-separated segments. -/
def parseScreenshotRoute (p : String) : Option (String × String) :=
  match splitSlash p.data with
  | [l0, l1, l2, l3, j, l5, s] =>
    if l0.isEmpty && l1 == "api".data && l2 == "v1".data && l3 == "jobs".data
        && l5 == "screenshots".data then
      some (String.mk j, String.mk s)
    else none
  | _ => none

/-- A string free of `'/'` characters (usable as a single path segment). -/
def noSlash (s : String) : Bool :=
  s.data.all (fun c => !(c == '/'))

/-- Reading of claim C5's resolution rule exactly as worded: the first
field that is present (set), in the order label, text, name, selector,
wins; presence alone decides. -/
def getLocatorFirstSetField (action : Action) : Option Locator :=
  match action.getByLabel with
  | some s => some (Locator.byLabel s)
  | none =>
    match action.getByText with
    | some (.plain s) => some (Locator.byText s none)
    | some (.withOpts t e) => some (Locator.byText t e)
    | none =>
      match action.getByName with
      | some s => some (Locator.byRoleTextbox s)
      | none => action.selector.map Locator.bySelector

/-- Amended resolution rule: the first truthy field wins, where a string
field is truthy iff non-empty and the object form of `getByText` is
always truthy. -/
def labelCand (action : Action) : Option Locator :=
  match action.getByLabel with
  | some s => if s == "" then none else some (Locator.byLabel s)
  | none => none

/-- Candidate from a truthy `getByText`. -/
def textCand (action : Action) : Option Locator :=
  match action.getByText with
  | some (.plain s) => if s == "" then none else some (Locator.byText s none)
  | some (.withOpts t e) => some (Locator.byText t e)
  | none => none

/-- Candidate from a truthy `getByName` (a textbox-role lookup). -/
def nameCand (action : Action) : Option Locator :=
  match action.getByName with
  | some s => if s == "" then none else some (Locator.byRoleTextbox s)
  | none => none

/-- Candidate from a truthy `selector`. -/
def selectorCand (action : Action) : Option Locator :=
  match action.selector with
  | some s => if s == "" then none else some (Locator.bySelector s)
  | none => none

/-- First-truthy-field resolution, the amended reading of claim C5. -/
def getLocatorTruthy (action : Action) : Option Locator :=
  (labelCand action).orElse fun _ =>
    (textCand action).orElse fun _ =>
      (nameCand action).orElse fun _ => selectorCand action

/-- The allowed one-step status transitions of the job state machine. -/
def statusStep (a b : JobStatus) : Prop :=
  (a = JobStatus.pending ∧ b = JobStatus.running) ∨
  (a = JobStatus.running ∧ b.isTerminal = true)

/-- Invariant of the action loop tying every path in the `screenshots`
array to a stored artifact: each recorded path names a screenshot id from
the UUID stream, produced by a successful capture whose bytes are
retrievable under the derived storage key. -/
def shotsOK (env : LoopEnv) (jobId : String) (st : RunSt) : Prop :=
  ∀ p ∈ st.shots, ∃ n bytes, n < st.nCap ∧
    p = screenshotPath jobId (env.uuid n) ∧
    env.pageShot n = Except.ok bytes ∧
    kvGet st.kv (screenshotKey jobId (env.uuid n)) = some bytes

/-- Join `/`-separated segments back into a character list. -/
def joinSlash : List (List Char) → List Char
  | [] => []
  | [x] => x
  | x :: xs => x ++ '/' :: joinSlash xs

/-! Concrete fixtures used by the witness and counterexample theorems. -/

/-- A job id of the shape `crypto.randomUUID()` produces (from the README's
sample response). -/
def wUuid : String := "87ed99b7-f372-4392-a046-e56f47256783"

/-- A minimal valid configuration: one `wait` action, no options. -/
def wCfg : JobConfig :=
  { deviceType := .desktop, browserType := .chromium,
    actions := [{ type := .wait }] }

/-- A stored pending job under the sample UUID. -/
def wJob : JobRec := pendingJob wUuid "2025-08-21T06:45:48.724Z" wCfg

/-- Stores holding the sample job and no artifacts. -/
def wStores : Stores := { jobs := [(jobKey wUuid, wJob)], artifacts := [] }

/-- Click action whose only truthy locator field is `selector`, but whose
`getByLabel` field is set (to the empty string). -/
def wA5 : Action := { type := .click, getByLabel := some "", selector := some "#a" }

/-- Action with no locator fields and both coordinates set. -/
def wAxy : Action := { type := .click, x := some 3, y := some 4 }

/-- Schema-valid expect action with `toContainText` set to the empty
string and no locator fields. -/
def wA10 : Action := { type := .expectA, toContainText := some "" }

/-- Expect action with a non-empty `toContainText` and no locator
fields. -/
def wAExpect : Action := { type := .expectA, toContainText := some "hello" }

/-- An injective, slash-free screenshot-id stream for witnesses. -/
def wUuidGen (n : Nat) : String := String.mk (List.replicate (n + 1) 'a')

/-- Loop environment where every browser call succeeds. -/
def wLoopEnv : LoopEnv :=
  { stepRun := fun _ => none,
    pageShot := fun _ => .ok "png-bytes",
    uuid := wUuidGen,
    nullFirstTypeError := Thrown.jsError "TypeError: null locator" none }

/-- Browser environment where every call succeeds. -/
def wEnvOk : BrowserEnv :=
  { loopEnv := wLoopEnv,
    launchRes := none, newPageRes := none, traceStartRes := none,
    traceStopRes := none, closeRes := none, closeCatchRes := none,
    readTraceRes := .ok "zip-bytes", finalUrl := "https://example.com/" }

/-- Environment identical to `wEnvOk` except that the success-path
`browser.close()` rejects. -/
def wEnvClose : BrowserEnv :=
  { wEnvOk with closeRes := some (Thrown.jsError "close boom" (some "close-st")) }

/-- Configuration requesting a trace. -/
def wCfgTrace : JobConfig :=
  { wCfg with options := some { generateTrace := some true } }

/-- The thrown error used by the step-failure fixtures. -/
def wErr : Thrown := Thrown.jsError "boom" (some "boom-st")

/-- Environment whose first browser operation fails and whose diagnostic
screenshot captures also fail. -/
def wEnvStepFail : BrowserEnv :=
  { wEnvOk with
    loopEnv :=
      { wLoopEnv with
        stepRun := fun _ => some wErr,
        pageShot := fun _ => .error Thrown.nonError } }

/-- A click-by-selector action (performs a real browser operation). -/
def wACl : Action := { type := .click, selector := some "#btn" }

/-- Configuration with a single click action. -/
def wCfgClick : JobConfig :=
  { deviceType := .desktop, browserType := .chromium, actions := [wACl] }

/-- Configuration with a single screenshot action. -/
def wCfgShot : JobConfig :=
  { deviceType := .desktop, browserType := .chromium,
    actions := [{ type := .screenshot }] }

/-- The loop state after `wEnvStepFail` fails the single click action of
`wCfgClick` (the diagnostic capture also fails, so no screenshot is
attached). -/
def wSt6 : RunSt :=
  { kv := [], shots := [], steps := [failStep wACl wErr none], nCap := 1 }

/-- The loop state after `wEnvOk` runs `wCfg`'s single wait action. -/
def wSt8 : RunSt :=
  { kv := [], shots := [], steps := [successStep { type := .wait }], nCap := 0 }

/-! Basic store lemmas. -/

theorem kvGet_put_self {α : Type} (kv : KV α) (k : String) (v : α) :
    kvGet (kvPut kv k v) k = some v := by
  simp [kvPut, kvGet]

theorem kvGet_put_ne {α : Type} (kv : KV α) (k k' : String) (v : α)
    (h : ¬ k = k') : kvGet (kvPut kv k v) k' = kvGet kv k' := by
  simp [kvPut, kvGet, h]

/-! Claim C1: the DELETE guard versus system-generated ids. -/

/-- Claim C1 (code bug): the DELETE handler's id-format guard accepts only
ids starting with `'job_'`, but every id the system generates is a
`crypto.randomUUID()` value, which begins with a lowercase hex digit; so
the handler answers 400 and deletes nothing for every job the system can
actually store, contradicting the claimed delete/200/404 behaviour. -/
theorem c1_delete_rejects_uuid_ids (jobId : String) (st : Stores)
    (h : isRandomUUID jobId = true) :
    deleteJobHandler jobId st = (DeleteResp.badRequest, st) := by
  have hsw : strStartsWith jobId "job_" = false := by
    cases hb : strStartsWith jobId "job_" with
    | false => rfl
    | true =>
      exfalso
      have hpref : "job_".data <+: jobId.data := List.isPrefixOf_iff_prefix.mp hb
      obtain ⟨tl, htl⟩ := hpref
      have hjd : "job_".data = ['j', 'o', 'b', '_'] := by decide
      rw [hjd] at htl
      have h0 : jobId.data.getD 0 ' ' = 'j' := by rw [← htl]; rfl
      simp only [isRandomUUID, Bool.and_eq_true] at h
      have h0' : isLowerHex (jobId.data.getD 0 ' ') = true :=
        List.all_eq_true.mp h.2 0 (by decide)
      rw [h0] at h0'
      exact absurd h0' (by decide)
  simp [deleteJobHandler, hsw]

/-- Witness: the README's sample UUID id is rejected with 400 and the
stores (which do contain that job) are left untouched, so a subsequent
GET still finds the record. -/
theorem c1_delete_rejects_uuid_ids_witness :
    isRandomUUID wUuid = true ∧
    deleteJobHandler wUuid wStores = (DeleteResp.badRequest, wStores) ∧
    getJobHandler wUuid wStores.jobs = some wJob :=
  ⟨by decide, c1_delete_rejects_uuid_ids wUuid wStores (by decide), by decide⟩

/-! Claims C2 and C3: the job-record write discipline. -/

/-- Claim C2: with storage writes modelled reliable, the job store sees
exactly the write sequence pending, then running, then one terminal
status, and consecutive writes follow the allowed transition relation, so
no write leaves a terminal state (the terminal write is last). -/
theorem c2_status_writes_monotone (env : BrowserEnv)
    (jobId createdAt completedAt : String) (config : JobConfig) (kv0 : KV String) :
    ∃ t : JobStatus, t.isTerminal = true ∧
      (jobWriteSeq env jobId createdAt completedAt config kv0).map JobRec.status
        = [JobStatus.pending, JobStatus.running, t] ∧
      List.Chain' statusStep
        ((jobWriteSeq env jobId createdAt completedAt config kv0).map JobRec.status) := by
  cases hr : (executeSeq env jobId config kv0).result.status with
  | success =>
    have hmap : (jobWriteSeq env jobId createdAt completedAt config kv0).map JobRec.status
        = [JobStatus.pending, JobStatus.running, JobStatus.completed] := by
      simp [jobWriteSeq, pendingJob, runningJob, completedJob, hr]
    refine ⟨JobStatus.completed, rfl, hmap, ?_⟩
    rw [hmap]
    simp [List.chain'_cons, statusStep, JobStatus.isTerminal]
  | fail =>
    have hmap : (jobWriteSeq env jobId createdAt completedAt config kv0).map JobRec.status
        = [JobStatus.pending, JobStatus.running, JobStatus.failed] := by
      simp [jobWriteSeq, pendingJob, runningJob, completedJob, hr]
    refine ⟨JobStatus.failed, rfl, hmap, ?_⟩
    rw [hmap]
    simp [List.chain'_cons, statusStep, JobStatus.isTerminal]

/-- Claim C3: every record shape the controller ever persists (pending,
running, terminal from the runner's result, and the background task's
catch overwrite) has `result` present iff terminal and `completedAt`
present iff terminal. -/
theorem c3_result_completedAt_iff_terminal (env : BrowserEnv)
    (jobId createdAt completedAt : String) (config : JobConfig) (kv0 : KV String)
    (e : Thrown) :
    ∀ rec ∈ persistedForms env jobId createdAt completedAt config kv0 e,
      (rec.result.isSome = true ↔ rec.status.isTerminal = true) ∧
      (rec.completedAt.isSome = true ↔ rec.status.isTerminal = true) := by
  intro rec hmem
  simp only [persistedForms, List.mem_cons, List.not_mem_nil, or_false] at hmem
  rcases hmem with rfl | rfl | rfl | rfl
  · simp [pendingJob, JobStatus.isTerminal]
  · simp [runningJob, pendingJob, JobStatus.isTerminal]
  · cases hr : (executeSeq env jobId config kv0).result.status <;>
      simp [completedJob, pendingJob, JobStatus.isTerminal, hr]
  · simp [catchFailedJob, pendingJob, JobStatus.isTerminal]

/-- Witness for claim C3 at the pending record of a concrete run. -/
theorem c3_result_completedAt_iff_terminal_witness :
    ((pendingJob "j3" "t3" wCfg).result.isSome = true
        ↔ (pendingJob "j3" "t3" wCfg).status.isTerminal = true) ∧
    ((pendingJob "j3" "t3" wCfg).completedAt.isSome = true
        ↔ (pendingJob "j3" "t3" wCfg).status.isTerminal = true) :=
  c3_result_completedAt_iff_terminal wEnvOk "j3" "t3" "t4" wCfg [] Thrown.nonError
    (pendingJob "j3" "t3" wCfg) (by decide)

/-! Claim C5: locator resolution. -/

/-- Resolution agrees with the first-truthy-field rule. -/
theorem locatorTruthyAux (a : Action) : getLocator a = getLocatorTruthy a := by
  rcases a with ⟨ty, sel, lab, txt, nm, text, tout, url, x, y, tct⟩
  simp only [getLocator, getLocatorTruthy, labelCand, textCand, nameCand, selectorCand,
    truthyStr, truthyText, Option.orElse]
  rcases lab with _ | ls <;> rcases txt with _ | (ps | ⟨ts, te⟩) <;>
    rcases nm with _ | ns <;> rcases sel with _ | ss <;>
    simp only [Option.map_some, Option.map_none] <;> split_ifs <;> simp_all

/-- Counterexample to claim C5 as stated: on an action whose `getByLabel`
is set to the empty string and whose `selector` is set, the code resolves
the selector, not the first set field. -/
theorem c5_first_set_field_refuted :
    getLocator wA5 = some (Locator.bySelector "#a") ∧
    getLocatorFirstSetField wA5 = some (Locator.byLabel "") ∧
    ¬ getLocator wA5 = getLocatorFirstSetField wA5 := by decide

/-- Claim C5 (amended): resolution picks the first truthy field — a
non-empty string for `getByLabel`/`getByName`/`selector`, a non-empty
string or any object form for `getByText` — in the order label, text,
name (textbox role), selector; with no truthy field it yields no locator,
and click/scroll then fall back to x/y coordinates when both are set. -/
theorem c5_truthy_resolution (a : Action) :
    getLocator a = getLocatorTruthy a ∧
    (∀ x y : Int, getLocator a = none → a.x = some x → a.y = some y →
      dispatchOp { a with type := ActionType.click } = StepOp.clickXY x y ∧
      dispatchOp { a with type := ActionType.scroll } = StepOp.scrollXY x y) := by
  refine ⟨locatorTruthyAux a, fun x y h hx hy => ⟨?_, ?_⟩⟩
  · show dispatchOp { a with type := ActionType.click } = StepOp.clickXY x y
    simp only [dispatchOp]
    rw [show getLocator { a with type := ActionType.click } = none from h]
    rw [show ({ a with type := ActionType.click } : Action).x = some x from hx]
    rw [show ({ a with type := ActionType.click } : Action).y = some y from hy]
  · show dispatchOp { a with type := ActionType.scroll } = StepOp.scrollXY x y
    simp only [dispatchOp]
    rw [show getLocator { a with type := ActionType.scroll } = none from h]
    rw [show ({ a with type := ActionType.scroll } : Action).x = some x from hx]
    rw [show ({ a with type := ActionType.scroll } : Action).y = some y from hy]

/-- Witness for the amended claim C5 on a concrete locator-free action
with coordinates (3, 4). -/
theorem c5_truthy_resolution_witness :
    getLocator wAxy = getLocatorTruthy wAxy ∧
    dispatchOp { wAxy with type := ActionType.click } = StepOp.clickXY 3 4 ∧
    dispatchOp { wAxy with type := ActionType.scroll } = StepOp.scrollXY 3 4 :=
  ⟨(c5_truthy_resolution wAxy).1,
   ((c5_truthy_resolution wAxy).2 3 4 (by decide) (by decide) (by decide)).1,
   ((c5_truthy_resolution wAxy).2 3 4 (by decide) (by decide) (by decide)).2⟩

/-! Claims C4 and C6: the action loop's trace and failure discipline. -/

/-- The try-body of one action never touches the `trace.steps` array. -/
theorem runOp_steps (env : LoopEnv) (jobId : String) (i : Nat) (a : Action) (st : RunSt) :
    (runOp env jobId i a st).1.steps = st.steps := by
  cases hd : dispatchOp a <;> simp [runOp, hd] <;>
    (try (cases hs : env.pageShot st.nCap <;> simp [hs]))

/-- Shape of the steps accumulated by the action loop: on a clean run one
success step per action in order; on a failure the success steps of the
actions before the failing one followed by exactly one failed step for
it, and nothing after. -/
theorem runLoop_steps (env : LoopEnv) (jobId : String) (actions : List Action) :
    ∀ (i : Nat) (st : RunSt),
      ((runLoop env jobId actions i st).2 = none →
        (runLoop env jobId actions i st).1.steps = st.steps ++ actions.map successStep) ∧
      (∀ e, (runLoop env jobId actions i st).2 = some e →
        ∃ k, ∃ hk : k < actions.length, ∃ shot,
          (runLoop env jobId actions i st).1.steps
            = st.steps ++ ((actions.take k).map successStep
                ++ [failStep (actions.get ⟨k, hk⟩) e shot])) := by
  induction actions with
  | nil =>
    intro i st
    constructor
    · intro _; simp [runLoop]
    · intro e he; simp [runLoop] at he
  | cons a rest ih =>
    intro i st
    rcases hop : runOp env jobId i a st with ⟨st', out⟩
    have hsteps : st'.steps = st.steps := by
      have h := runOp_steps env jobId i a st
      rw [hop] at h; exact h
    cases out with
    | none =>
      have heq : runLoop env jobId (a :: rest) i st
          = runLoop env jobId rest (i + 1) { st' with steps := st'.steps ++ [successStep a] } := by
        simp [runLoop, hop]
      constructor
      · intro hnone
        rw [heq] at hnone ⊢
        rw [(ih (i + 1) { st' with steps := st'.steps ++ [successStep a] }).1 hnone]
        simp [hsteps]
      · intro e he
        rw [heq] at he ⊢
        obtain ⟨k, hk, shot, hsh⟩ :=
          (ih (i + 1) { st' with steps := st'.steps ++ [successStep a] }).2 e he
        refine ⟨k + 1, Nat.succ_lt_succ hk, shot, ?_⟩
        rw [hsh]
        simp [hsteps, List.take_succ_cons]
    | some e0 =>
      have heq : runLoop env jobId (a :: rest) i st
          = (catchStep env jobId a e0 st', some e0) := by
        simp [runLoop, hop]
      constructor
      · intro hnone; rw [heq] at hnone; simp at hnone
      · intro e he
        rw [heq] at he ⊢
        have he' : e0 = e := by simpa using he
        subst he'
        cases hs : env.pageShot st'.nCap with
        | ok bytes =>
          refine ⟨0, Nat.succ_pos _, some (screenshotPath jobId (env.uuid st'.nCap)), ?_⟩
          simp [catchStep, hs, hsteps]
        | error e2 =>
          refine ⟨0, Nat.succ_pos _, none, ?_⟩
          simp [catchStep, hs, hsteps]

/-- Claim C4: the action loop records exactly one trace step per attempted
action, in execution order: a clean run yields one success step per
configured action; a run whose first failure is at (0-based) index k
yields the k success steps of the preceding actions followed by one
failed step for the failing action, and no steps for the actions after
it. -/
theorem c4_trace_steps_per_attempt (env : LoopEnv) (jobId : String)
    (actions : List Action) (kv0 : KV String) :
    (match runLoop env jobId actions 0 (initSt kv0) with
      | (st, none) => st.steps = actions.map successStep
      | (st, some e) => ∃ k, ∃ hk : k < actions.length, ∃ shot,
          st.steps = (actions.take k).map successStep
            ++ [failStep (actions.get ⟨k, hk⟩) e shot]) := by
  have h := runLoop_steps env jobId actions 0 (initSt kv0)
  rcases hr : runLoop env jobId actions 0 (initSt kv0) with ⟨st, out⟩
  cases out with
  | none =>
    have h1 := h.1 (by rw [hr])
    rw [hr] at h1
    simpa [initSt] using h1
  | some e =>
    have h2 := h.2 e (by rw [hr])
    rw [hr] at h2
    simpa [initSt] using h2

/-- Claim C6: when the loop's first failure throws `e`, the run returns a
fail result whose error carries exactly the original error's message and
stack (whatever the diagnostic captures did — the environment's capture
outcomes are universally quantified here, so a failing diagnostic
screenshot never replaces the original error), whose trace is the
accumulated steps, and those steps end in exactly one failed step for the
failing action with the actions after it aborted. -/
theorem c6_first_failure_handling (env : BrowserEnv) (jobId : String)
    (config : JobConfig) (kv0 : KV String) (st : RunSt) (e : Thrown)
    (h1 : env.launchRes = none) (h2 : env.newPageRes = none)
    (h3 : (if config.wantsTrace then env.traceStartRes else none) = none)
    (h4 : runLoop env.loopEnv jobId config.actions 0 (initSt kv0) = (st, some e)) :
    (executeSeq env jobId config kv0).result.status = ResStatus.fail ∧
    (∃ err, (executeSeq env jobId config kv0).result.error = some err ∧
      err.message = e.msg ∧ err.stackStr = e.stackOf) ∧
    (executeSeq env jobId config kv0).result.trace = some { steps := st.steps } ∧
    (∃ k, ∃ hk : k < config.actions.length, ∃ shot,
      st.steps = (config.actions.take k).map successStep
        ++ [failStep (config.actions.get ⟨k, hk⟩) e shot]) := by
  have hex : executeSeq env jobId config kv0 = outerCatch env jobId e st true true 0 := by
    simp [executeSeq, h1, h2, h3, h4]
  have hshape := (runLoop_steps env.loopEnv jobId config.actions 0 (initSt kv0)).2 e (by rw [h4])
  rw [h4] at hshape
  rw [hex]
  exact ⟨rfl, ⟨_, rfl, rfl, rfl⟩, rfl, by simpa [initSt] using hshape⟩

/-- Witness for claim C6: a concrete run whose single click action fails
with `wErr` produces a fail result carrying that error's message and
stack. -/
theorem c6_first_failure_handling_witness :
    (executeSeq wEnvStepFail "j6" wCfgClick []).result.status = ResStatus.fail ∧
    (∃ err, (executeSeq wEnvStepFail "j6" wCfgClick []).result.error = some err ∧
      err.message = wErr.msg ∧ err.stackStr = wErr.stackOf) :=
  ⟨(c6_first_failure_handling wEnvStepFail "j6" wCfgClick [] wSt6 wErr rfl rfl
      (by decide) (by decide)).1,
   (c6_first_failure_handling wEnvStepFail "j6" wCfgClick [] wSt6 wErr rfl rfl
      (by decide) (by decide)).2.1⟩

/-! Claims C7 and C8: browser release and trace persistence. -/

/-- Counterexample to claim C7 as stated: in a run where every action
succeeds (the single trace step is a success step), a rejection of the
success-path `await browser.close()` is not swallowed — it lands in the
outer catch and turns the job's result into a fail carrying the close
error, and the browser is closed a second time by the catch. -/
theorem c7_close_failure_flips_outcome :
    (executeSeq wEnvClose "j7" wCfg []).result.status = ResStatus.fail ∧
    ((executeSeq wEnvClose "j7" wCfg []).result.error).map (fun er => er.message)
      = some "close boom" ∧
    (executeSeq wEnvClose "j7" wCfg []).result.trace
      = some { steps := [successStep { type := ActionType.wait }] } ∧
    (executeSeq wEnvClose "j7" wCfg []).closeCalls = 2 := by decide

/-- Claim C7 (amended): on every path where a browser was launched,
`browser.close()` is invoked at least once, and the catch-path close's
own outcome is discarded (`.catch(() => {})`), so it cannot change the
run's result; but on the success path `close` is awaited bare, so its
failure reaches the outer catch and changes the outcome (see the
counterexample). -/
theorem c7_close_called (env : BrowserEnv) (jobId : String) (config : JobConfig)
    (kv0 : KV String)
    (h : (executeSeq env jobId config kv0).browserLaunched = true) :
    1 ≤ (executeSeq env jobId config kv0).closeCalls ∧
    ∀ alt, executeSeq { env with closeCatchRes := alt } jobId config kv0
      = executeSeq env jobId config kv0 := by
  refine ⟨?_, fun alt => rfl⟩
  cases hL : env.launchRes with
  | some e =>
    exfalso
    rw [show executeSeq env jobId config kv0
        = outerCatch env jobId e (initSt kv0) false false 0 from by simp [executeSeq, hL]] at h
    simp [outerCatch] at h
  | none =>
    cases hN : env.newPageRes with
    | some e => simp [executeSeq, hL, hN, outerCatch]
    | none =>
      cases hT : (if config.wantsTrace then env.traceStartRes else none) with
      | some e => simp [executeSeq, hL, hN, hT, outerCatch]
      | none =>
        rcases hRL : runLoop env.loopEnv jobId config.actions 0 (initSt kv0) with ⟨st, out⟩
        cases out with
        | some e => simp [executeSeq, hL, hN, hT, hRL, outerCatch]
        | none =>
          cases hS : (if config.wantsTrace then env.traceStopRes else none) with
          | some e => simp [executeSeq, hL, hN, hT, hRL, hS, outerCatch]
          | none =>
            cases hC : env.closeRes with
            | some e => simp [executeSeq, hL, hN, hT, hRL, hS, hC, outerCatch]
            | none =>
              cases hW : config.wantsTrace with
              | false => simp [executeSeq, hL, hN, hT, hRL, hS, hC, hW]
              | true =>
                simp [hW] at hT hS
                cases hR : env.readTraceRes with
                | ok bytes => simp [executeSeq, hL, hN, hT, hRL, hS, hC, hW, hR]
                | error e => simp [executeSeq, hL, hN, hT, hRL, hS, hC, hW, hR, outerCatch]

/-- Witness for the amended claim C7 on the close-failure run. -/
theorem c7_close_called_witness :
    1 ≤ (executeSeq wEnvClose "j7" wCfg []).closeCalls ∧
    executeSeq { wEnvClose with closeCatchRes := some Thrown.nonError } "j7" wCfg []
      = executeSeq wEnvClose "j7" wCfg [] :=
  ⟨(c7_close_called wEnvClose "j7" wCfg [] (by decide)).1,
   (c7_close_called wEnvClose "j7" wCfg [] (by decide)).2 (some Thrown.nonError)⟩

/-- Counterexample to claim C8 as stated: a fully successful traced run
returns a trace block with `traceViewerUrl` set but `traceFile` absent —
the source never assigns `trace.traceFile`. -/
theorem c8_traceFile_never_set :
    (executeSeq wEnvOk "j8" wCfgTrace []).result.status = ResStatus.success ∧
    (executeSeq wEnvOk "j8" wCfgTrace []).result.trace
      = some { steps := [successStep { type := ActionType.wait }],
               traceFile := none,
               traceViewerUrl := some (traceViewerUrlStr "j8") } := by decide

/-- Claim C8 (amended): on a fully successful run with tracing requested,
the result's trace block carries the viewer URL pointing at the job's
trace endpoint (but no `traceFile` reference), and the trace bundle is
persisted under `trace:{jobId}` so the trace endpoint serves exactly the
read bytes. -/
theorem c8_trace_persisted (env : BrowserEnv) (jobId : String) (config : JobConfig)
    (kv0 : KV String) (st : RunSt) (bytes : String)
    (hT : config.wantsTrace = true)
    (h1 : env.launchRes = none) (h2 : env.newPageRes = none)
    (h3 : env.traceStartRes = none)
    (h4 : runLoop env.loopEnv jobId config.actions 0 (initSt kv0) = (st, none))
    (h5 : env.traceStopRes = none) (h6 : env.closeRes = none)
    (h7 : env.readTraceRes = Except.ok bytes) :
    (executeSeq env jobId config kv0).result.status = ResStatus.success ∧
    (executeSeq env jobId config kv0).result.trace
      = some { steps := st.steps, traceFile := none,
               traceViewerUrl := some (traceViewerUrlStr jobId) } ∧
    getTraceHandler jobId (executeSeq env jobId config kv0).kv = some bytes := by
  have hex : executeSeq env jobId config kv0
      = { result := successResult st env.finalUrl (some (traceViewerUrlStr jobId)),
          kv := (storeTrace jobId bytes st.kv).2,
          closeCalls := 1, browserLaunched := true } := by
    simp [executeSeq, h1, h2, h3, h4, h5, h6, h7, hT]
  rw [hex]
  refine ⟨rfl, rfl, ?_⟩
  simp [getTraceHandler, storeTrace, kvGet_put_self]

/-- Witness for the amended claim C8 on a concrete traced run. -/
theorem c8_trace_persisted_witness :
    (executeSeq wEnvOk "j8" wCfgTrace []).result.status = ResStatus.success ∧
    getTraceHandler "j8" (executeSeq wEnvOk "j8" wCfgTrace []).kv = some "zip-bytes" :=
  ⟨(c8_trace_persisted wEnvOk "j8" wCfgTrace [] wSt8 "zip-bytes" (by decide) rfl rfl rfl
      (by decide) rfl rfl rfl).1,
   (c8_trace_persisted wEnvOk "j8" wCfgTrace [] wSt8 "zip-bytes" (by decide) rfl rfl rfl
      (by decide) rfl rfl rfl).2.2⟩

/-! Claim C10: expect with `toContainText` and no locator fields. -/

/-- Counterexample to claim C10 as stated: the schema-valid expect action
with `toContainText` set to the empty string is a successful no-op (the
truthiness test skips the whole case body), not a runtime type error. -/
theorem c10_empty_toContainText_noop :
    dispatchOp wA10 = StepOp.expectNoop ∧
    ¬ StepOp.expectNoop = StepOp.expectNullFirst ∧
    runOp wLoopEnv "j10" 0 wA10 (initSt []) = (initSt [], none) := by decide

/-- Claim C10 (amended): for every expect action whose `toContainText` is
a non-empty string and whose four locator fields are all unset, dispatch
reaches `getLocator(page, action).first()` with a null locator, so the
step always throws the environment's TypeError. -/
theorem c10_null_locator_deref (a : Action) (t : String)
    (hty : a.type = ActionType.expectA) (ht : a.toContainText = some t)
    (hne : ¬ t = "")
    (h1 : a.selector = none) (h2 : a.getByLabel = none)
    (h3 : a.getByText = none) (h4 : a.getByName = none) :
    dispatchOp a = StepOp.expectNullFirst ∧
    ∀ (env : LoopEnv) (jobId : String) (i : Nat) (st : RunSt),
      runOp env jobId i a st = (st, some env.nullFirstTypeError) := by
  have hloc : getLocator a = none := by
    simp [getLocator, truthyStr, truthyText, h1, h2, h3, h4]
  have hd : dispatchOp a = StepOp.expectNullFirst := by
    simp [dispatchOp, hty, truthyStr, ht, hne, hloc]
  exact ⟨hd, fun env jobId i st => by simp [runOp, hd]⟩

/-! Claim C9: screenshot addressing round trip. -/

/-- Rebuilding a string from its characters is the identity. -/
theorem strMk_data (s : String) : String.mk s.data = s := by cases s; rfl

/-- Characters of a slash-free string. -/
theorem noSlash_chars {s : String} (h : noSlash s = true) : ∀ c ∈ s.data, ¬ c = '/' := by
  intro c hc
  have h' := List.all_eq_true.mp h c hc
  simpa using h'

/-- Concatenation preserves slash-freeness. -/
theorem noSlash_append {a b : String} (ha : noSlash a = true) (hb : noSlash b = true) :
    noSlash (a ++ b) = true := by
  unfold noSlash at *
  rw [String.data_append, List.all_append, ha, hb]
  rfl

/-- Splitting skips over a separator-free block, accumulating it. -/
theorem splitSlashAux_nosep (seg : List Char) (hs : ∀ c ∈ seg, ¬ c = '/') :
    ∀ (acc rest : List Char),
      splitSlashAux (seg ++ rest) acc = splitSlashAux rest (seg.reverse ++ acc) := by
  induction seg with
  | nil => intro acc rest; simp
  | cons c cs ih =>
    intro acc rest
    have hc : ¬ c = '/' := hs c (List.mem_cons_self _ _)
    have hcs : ∀ x ∈ cs, ¬ x = '/' := fun x hx => hs x (List.mem_cons_of_mem _ hx)
    simp only [List.cons_append, splitSlashAux, if_neg hc, List.append_eq]
    rw [ih hcs (c :: acc) rest]
    simp [List.append_assoc]

/-- Splitting at a leading separator emits the accumulated segment. -/
theorem splitSlashAux_sep (cs acc : List Char) :
    splitSlashAux ('/' :: cs) acc = acc.reverse :: splitSlashAux cs [] := by
  simp [splitSlashAux]

/-- Splitting inverts joining for non-empty segment lists whose segments
are separator-free. -/
theorem splitSlash_joinSlash : ∀ (segs : List (List Char)), ¬ segs = [] →
    (∀ seg ∈ segs, ∀ c ∈ seg, ¬ c = '/') →
    splitSlash (joinSlash segs) = segs
  | [], h, _ => absurd rfl h
  | [x], _, hall => by
    have hx : ∀ c ∈ x, ¬ c = '/' := hall x (by simp)
    show splitSlashAux (joinSlash [x]) [] = [x]
    have hx' : joinSlash [x] = x ++ [] := by simp [joinSlash]
    rw [hx', splitSlashAux_nosep x hx [] []]
    simp [splitSlashAux]
  | x :: y :: rest, _, hall => by
    have hx : ∀ c ∈ x, ¬ c = '/' := hall x (by simp)
    show splitSlashAux (x ++ '/' :: joinSlash (y :: rest)) [] = x :: y :: rest
    rw [splitSlashAux_nosep x hx [] ('/' :: joinSlash (y :: rest)), splitSlashAux_sep]
    have ih := splitSlash_joinSlash (y :: rest) (by simp)
      (fun seg hseg => hall seg (List.mem_cons_of_mem _ hseg))
    unfold splitSlash at ih
    rw [ih]
    simp

/-- Route matching recovers the two parameters from a screenshot path
whose segments are slash-free. -/
theorem parseScreenshotRoute_path (j s : String)
    (hj : noSlash j = true) (hs : noSlash s = true) :
    parseScreenshotRoute ("/api/v1/jobs/" ++ j ++ "/screenshots/" ++ s) = some (j, s) := by
  have hd : ("/api/v1/jobs/" ++ j ++ "/screenshots/" ++ s).data
      = joinSlash [[], "api".data, "v1".data, "jobs".data, j.data, "screenshots".data, s.data] := by
    simp only [String.data_append]
    simp [joinSlash, List.append_assoc]
  have hsegs : ∀ seg ∈ [([] : List Char), "api".data, "v1".data, "jobs".data, j.data,
      "screenshots".data, s.data], ∀ c ∈ seg, ¬ c = '/' := by
    intro seg hseg
    simp only [List.mem_cons, List.not_mem_nil, or_false] at hseg
    rcases hseg with rfl | rfl | rfl | rfl | rfl | rfl | rfl
    · intro c hc; simp at hc
    · decide
    · decide
    · decide
    · exact noSlash_chars hj
    · decide
    · exact noSlash_chars hs
  unfold parseScreenshotRoute
  rw [hd, splitSlash_joinSlash _ (by simp) hsegs]
  simp [strMk_data]

/-- A screenshot path is the route prefix followed by the id-with-suffix
segment. -/
theorem screenshotPath_split (jobId sid : String) :
    screenshotPath jobId sid
      = "/api/v1/jobs/" ++ jobId ++ "/screenshots/" ++ (sid ++ ".png") := by
  apply String.ext
  simp [screenshotPath, String.data_append, List.append_assoc]

/-- The key the GET handler derives from the `.png`-bearing parameter is
exactly the storage key `storeScreenshot` used. -/
theorem screenshotKey_handlerKey (jobId sid : String) :
    "screenshot:" ++ jobId ++ ":" ++ (sid ++ ".png") = screenshotKey jobId sid := by
  apply String.ext
  simp [screenshotKey, String.data_append, List.append_assoc]

/-- Round trip for one stored screenshot: its returned path parses back to
the job id and the `.png`-bearing id, and the GET handler finds the
stored bytes. -/
theorem screenshot_roundTrip (jobId sid bytes : String) (kv : KV String)
    (hj : noSlash jobId = true) (hsid : noSlash sid = true)
    (hget : kvGet kv (screenshotKey jobId sid) = some bytes) :
    parseScreenshotRoute (screenshotPath jobId sid) = some (jobId, sid ++ ".png") ∧
    getScreenshotHandler jobId (sid ++ ".png") kv = some bytes := by
  constructor
  · rw [screenshotPath_split]
    exact parseScreenshotRoute_path jobId (sid ++ ".png") hj (noSlash_append hsid (by decide))
  · unfold getScreenshotHandler
    rw [screenshotKey_handlerKey]
    exact hget

/-- Screenshot keys of one job are distinct for distinct ids. -/
theorem screenshotKey_sid_inj {jobId s1 s2 : String}
    (h : screenshotKey jobId s1 = screenshotKey jobId s2) : s1 = s2 := by
  have hd := congrArg String.data h
  simp only [screenshotKey, String.data_append, List.append_assoc] at hd
  have h1 := List.append_cancel_left hd
  have h2 := List.append_cancel_left h1
  have h3 := List.append_cancel_left h2
  have h4 := List.append_cancel_right h3
  exact String.ext h4

/-- A trace key never collides with a screenshot key. -/
theorem traceKey_ne_screenshotKey (j1 j2 s : String) :
    ¬ traceKey j1 = screenshotKey j2 s := by
  intro h
  have hd := congrArg String.data h
  simp only [traceKey, screenshotKey, String.data_append, List.append_assoc] at hd
  simp [List.cons_append] at hd

/-- The try-body of one action preserves the screenshot invariant. -/
theorem runOp_shotsOK (env : LoopEnv) (jobId : String) (i : Nat) (a : Action) (st : RunSt)
    (hinj : ∀ m n, env.uuid m = env.uuid n → m = n)
    (h : shotsOK env jobId st) : shotsOK env jobId (runOp env jobId i a st).1 := by
  cases hd : dispatchOp a <;> try (simpa [runOp, hd] using h)
  case shoot =>
    cases hsb : env.pageShot st.nCap with
    | ok bytes =>
      simp only [runOp, hd, hsb]
      intro p hp
      rcases List.mem_append.mp hp with hmem | hmem
      · obtain ⟨n, bytes', hn, hpath, hshotn, hget⟩ := h p hmem
        refine ⟨n, bytes', Nat.lt_succ_of_lt hn, hpath, hshotn, ?_⟩
        simp only [storeScreenshot]
        rw [kvGet_put_ne]
        · exact hget
        · intro hkeq
          have hnn := hinj _ _ (screenshotKey_sid_inj hkeq)
          omega
      · have hp' : p = screenshotPath jobId (env.uuid st.nCap) := by simpa using hmem
        refine ⟨st.nCap, bytes, Nat.lt_succ_self _, hp', hsb, ?_⟩
        simp only [storeScreenshot]
        exact kvGet_put_self _ _ _
    | error e =>
      simp only [runOp, hd, hsb]
      intro p hp
      obtain ⟨n, bytes', hn, hpath, hshotn, hget⟩ := h p hp
      exact ⟨n, bytes', Nat.lt_succ_of_lt hn, hpath, hshotn, hget⟩

/-- The per-step catch block preserves the screenshot invariant. -/
theorem catchStep_shotsOK (env : LoopEnv) (jobId : String) (a : Action) (e : Thrown)
    (st : RunSt) (hinj : ∀ m n, env.uuid m = env.uuid n → m = n)
    (h : shotsOK env jobId st) : shotsOK env jobId (catchStep env jobId a e st) := by
  cases hsb : env.pageShot st.nCap with
  | ok bytes =>
    simp only [catchStep, hsb]
    intro p hp
    obtain ⟨n, bytes', hn, hpath, hshotn, hget⟩ := h p hp
    refine ⟨n, bytes', Nat.lt_succ_of_lt hn, hpath, hshotn, ?_⟩
    simp only [storeScreenshot]
    rw [kvGet_put_ne]
    · exact hget
    · intro hkeq
      have hnn := hinj _ _ (screenshotKey_sid_inj hkeq)
      omega
  | error e2 =>
    simp only [catchStep, hsb]
    intro p hp
    obtain ⟨n, bytes', hn, hpath, hshotn, hget⟩ := h p hp
    exact ⟨n, bytes', Nat.lt_succ_of_lt hn, hpath, hshotn, hget⟩

/-- The action loop preserves the screenshot invariant. -/
theorem runLoop_shotsOK (env : LoopEnv) (jobId : String)
    (hinj : ∀ m n, env.uuid m = env.uuid n → m = n) :
    ∀ (actions : List Action) (i : Nat) (st : RunSt), shotsOK env jobId st →
      shotsOK env jobId (runLoop env jobId actions i st).1 := by
  intro actions
  induction actions with
  | nil => intro i st h; simpa [runLoop] using h
  | cons a rest ih =>
    intro i st h
    rcases hop : runOp env jobId i a st with ⟨st', out⟩
    have h' : shotsOK env jobId st' := by
      have hh := runOp_shotsOK env jobId i a st hinj h
      rw [hop] at hh; exact hh
    cases out with
    | none =>
      have heq : runLoop env jobId (a :: rest) i st
          = runLoop env jobId rest (i + 1) { st' with steps := st'.steps ++ [successStep a] } := by
        simp [runLoop, hop]
      rw [heq]
      exact ih (i + 1) { st' with steps := st'.steps ++ [successStep a] } h'
    | some e0 =>
      have heq : runLoop env jobId (a :: rest) i st
          = (catchStep env jobId a e0 st', some e0) := by
        simp [runLoop, hop]
      rw [heq]
      exact catchStep_shotsOK env jobId a e0 st' hinj h'

/-- Every screenshot reference produced by the outer catch (the
diagnostic error screenshot) round trips through the GET handler. -/
theorem outerCatch_c9 (env : BrowserEnv) (jobId : String) (e : Thrown) (st : RunSt)
    (pageOpen browserOpen : Bool) (k : Nat)
    (hjob : noSlash jobId = true)
    (huuid : ∀ n, noSlash (env.loopEnv.uuid n) = true)
    (p : String)
    (hp : (∃ stats, (outerCatch env jobId e st pageOpen browserOpen k).result.statistics
            = some stats ∧ p ∈ stats.screenshots) ∨
          (∃ err, (outerCatch env jobId e st pageOpen browserOpen k).result.error = some err ∧
            err.screenshot = some p)) :
    ∃ sid bytes, parseScreenshotRoute p = some (jobId, sid ++ ".png") ∧
      getScreenshotHandler jobId (sid ++ ".png")
        (outerCatch env jobId e st pageOpen browserOpen k).kv = some bytes := by
  cases pageOpen with
  | false =>
    have hoc : outerCatch env jobId e st false browserOpen k
        = { result := { status := .fail,
                        error := some { message := e.msg, stackStr := e.stackOf,
                                        screenshot := none },
                        trace := some { steps := st.steps } },
            kv := st.kv,
            closeCalls := k + (if browserOpen then 1 else 0),
            browserLaunched := browserOpen } := by
      simp [outerCatch]
    rw [hoc] at hp
    rcases hp with ⟨stats, hs, _⟩ | ⟨err, he, hshot⟩
    · exact absurd hs (by simp)
    · have heq := Option.some.inj he
      rw [← heq] at hshot
      simp at hshot
  | true =>
    cases hsb : env.loopEnv.pageShot st.nCap with
    | ok bytes =>
      have hoc : outerCatch env jobId e st true browserOpen k
          = { result := { status := .fail,
                          error := some { message := e.msg, stackStr := e.stackOf,
                                          screenshot := some (screenshotPath jobId
                                            (env.loopEnv.uuid st.nCap)) },
                          trace := some { steps := st.steps } },
              kv := (storeScreenshot jobId (env.loopEnv.uuid st.nCap) bytes st.kv).2,
              closeCalls := k + (if browserOpen then 1 else 0),
              browserLaunched := browserOpen } := by
        simp [outerCatch, hsb]
      rw [hoc] at hp ⊢
      rcases hp with ⟨stats, hs, _⟩ | ⟨err, he, hshot⟩
      · exact absurd hs (by simp)
      · have heq := Option.some.inj he
        rw [← heq] at hshot
        have hp' : p = screenshotPath jobId (env.loopEnv.uuid st.nCap) := by
          simpa using hshot.symm
        subst hp'
        have hget : kvGet (storeScreenshot jobId (env.loopEnv.uuid st.nCap) bytes st.kv).2
            (screenshotKey jobId (env.loopEnv.uuid st.nCap)) = some bytes := by
          simp only [storeScreenshot]
          exact kvGet_put_self _ _ _
        have hrt := screenshot_roundTrip jobId (env.loopEnv.uuid st.nCap) bytes _
          hjob (huuid st.nCap) hget
        exact ⟨env.loopEnv.uuid st.nCap, bytes, hrt.1, hrt.2⟩
    | error e2 =>
      have hoc : outerCatch env jobId e st true browserOpen k
          = { result := { status := .fail,
                          error := some { message := e.msg, stackStr := e.stackOf,
                                          screenshot := none },
                          trace := some { steps := st.steps } },
              kv := st.kv,
              closeCalls := k + (if browserOpen then 1 else 0),
              browserLaunched := browserOpen } := by
        simp [outerCatch, hsb]
      rw [hoc] at hp
      rcases hp with ⟨stats, hs, _⟩ | ⟨err, he, hshot⟩
      · exact absurd hs (by simp)
      · have heq := Option.some.inj he
        rw [← heq] at hshot
        simp at hshot

/-- Claim C9: with system-generated screenshot ids (injective, slash-free
stream) and a slash-free job id, every screenshot reference a run returns
(success statistics entry or failure error screenshot) parses back to
exactly the parameters whose derived key is the storage key of the
written blob, and the GET screenshot handler serves those bytes. -/
theorem c9_screenshot_roundtrip (env : BrowserEnv) (jobId : String) (config : JobConfig)
    (kv0 : KV String)
    (hinj : ∀ m n, env.loopEnv.uuid m = env.loopEnv.uuid n → m = n)
    (huuid : ∀ n, noSlash (env.loopEnv.uuid n) = true)
    (hjob : noSlash jobId = true)
    (p : String)
    (hp : (∃ stats, (executeSeq env jobId config kv0).result.statistics = some stats
            ∧ p ∈ stats.screenshots) ∨
          (∃ err, (executeSeq env jobId config kv0).result.error = some err ∧
            err.screenshot = some p)) :
    ∃ sid bytes, parseScreenshotRoute p = some (jobId, sid ++ ".png") ∧
      getScreenshotHandler jobId (sid ++ ".png") (executeSeq env jobId config kv0).kv
        = some bytes := by
  have hinit : shotsOK env.loopEnv jobId (initSt kv0) := by
    intro q hq
    simp [initSt] at hq
  cases hL : env.launchRes with
  | some e =>
    have hex : executeSeq env jobId config kv0
        = outerCatch env jobId e (initSt kv0) false false 0 := by
      simp [executeSeq, hL]
    rw [hex] at hp ⊢
    exact outerCatch_c9 env jobId e (initSt kv0) false false 0 hjob huuid p hp
  | none =>
    cases hN : env.newPageRes with
    | some e =>
      have hex : executeSeq env jobId config kv0
          = outerCatch env jobId e (initSt kv0) false true 0 := by
        simp [executeSeq, hL, hN]
      rw [hex] at hp ⊢
      exact outerCatch_c9 env jobId e (initSt kv0) false true 0 hjob huuid p hp
    | none =>
      cases hT : (if config.wantsTrace then env.traceStartRes else none) with
      | some e =>
        have hex : executeSeq env jobId config kv0
            = outerCatch env jobId e (initSt kv0) true true 0 := by
          simp [executeSeq, hL, hN, hT]
        rw [hex] at hp ⊢
        exact outerCatch_c9 env jobId e (initSt kv0) true true 0 hjob huuid p hp
      | none =>
        rcases hRL : runLoop env.loopEnv jobId config.actions 0 (initSt kv0) with ⟨st, out⟩
        have hso : shotsOK env.loopEnv jobId st := by
          have hh := runLoop_shotsOK env.loopEnv jobId hinj config.actions 0 (initSt kv0) hinit
          rw [hRL] at hh; exact hh
        cases out with
        | some e =>
          have hex : executeSeq env jobId config kv0
              = outerCatch env jobId e st true true 0 := by
            simp [executeSeq, hL, hN, hT, hRL]
          rw [hex] at hp ⊢
          exact outerCatch_c9 env jobId e st true true 0 hjob huuid p hp
        | none =>
          cases hS : (if config.wantsTrace then env.traceStopRes else none) with
          | some e =>
            have hex : executeSeq env jobId config kv0
                = outerCatch env jobId e st true true 0 := by
              simp [executeSeq, hL, hN, hT, hRL, hS]
            rw [hex] at hp ⊢
            exact outerCatch_c9 env jobId e st true true 0 hjob huuid p hp
          | none =>
            cases hC : env.closeRes with
            | some e =>
              have hex : executeSeq env jobId config kv0
                  = outerCatch env jobId e st true true 1 := by
                simp [executeSeq, hL, hN, hT, hRL, hS, hC]
              rw [hex] at hp ⊢
              exact outerCatch_c9 env jobId e st true true 1 hjob huuid p hp
            | none =>
              cases hW : config.wantsTrace with
              | false =>
                have hex : executeSeq env jobId config kv0
                    = { result := successResult st env.finalUrl none,
                        kv := st.kv, closeCalls := 1, browserLaunched := true } := by
                  simp [executeSeq, hL, hN, hT, hRL, hS, hC, hW]
                rw [hex] at hp ⊢
                rcases hp with ⟨stats, hs, hmem⟩ | ⟨err, he, _⟩
                · have hstats := Option.some.inj hs
                  rw [← hstats] at hmem
                  obtain ⟨n, bytes, hn, hpath, hshotn, hget⟩ := hso p hmem
                  subst hpath
                  have hrt := screenshot_roundTrip jobId (env.loopEnv.uuid n) bytes st.kv
                    hjob (huuid n) hget
                  exact ⟨env.loopEnv.uuid n, bytes, hrt.1, hrt.2⟩
                · exact absurd he (by simp [successResult])
              | true =>
                simp [hW] at hT hS
                cases hR : env.readTraceRes with
                | error e =>
                  have hex : executeSeq env jobId config kv0
                      = outerCatch env jobId e st true true 1 := by
                    simp [executeSeq, hL, hN, hT, hRL, hS, hC, hW, hR]
                  rw [hex] at hp ⊢
                  exact outerCatch_c9 env jobId e st true true 1 hjob huuid p hp
                | ok tbytes =>
                  have hex : executeSeq env jobId config kv0
                      = { result := successResult st env.finalUrl
                            (some (traceViewerUrlStr jobId)),
                          kv := (storeTrace jobId tbytes st.kv).2,
                          closeCalls := 1, browserLaunched := true } := by
                    simp [executeSeq, hL, hN, hT, hRL, hS, hC, hW, hR]
                  rw [hex] at hp ⊢
                  rcases hp with ⟨stats, hs, hmem⟩ | ⟨err, he, _⟩
                  · have hstats := Option.some.inj hs
                    rw [← hstats] at hmem
                    obtain ⟨n, bytes, hn, hpath, hshotn, hget⟩ := hso p hmem
                    subst hpath
                    have hget2 : kvGet (storeTrace jobId tbytes st.kv).2
                        (screenshotKey jobId (env.loopEnv.uuid n)) = some bytes := by
                      simp only [storeTrace]
                      rw [kvGet_put_ne]
                      · exact hget
                      · exact traceKey_ne_screenshotKey jobId jobId (env.loopEnv.uuid n)
                    have hrt := screenshot_roundTrip jobId (env.loopEnv.uuid n) bytes
                      (storeTrace jobId tbytes st.kv).2 hjob (huuid n) hget2
                    exact ⟨env.loopEnv.uuid n, bytes, hrt.1, hrt.2⟩
                  · exact absurd he (by simp [successResult])

/-- The witness id stream is injective. -/
theorem wUuidGen_inj : ∀ m n, wUuidGen m = wUuidGen n → m = n := by
  intro m n h
  have hd := congrArg String.data h
  have hl := congrArg List.length hd
  simpa [wUuidGen] using hl

/-- The witness id stream is slash-free. -/
theorem wUuidGen_noSlash : ∀ n, noSlash (wUuidGen n) = true := by
  intro n
  apply List.all_eq_true.mpr
  intro c hc
  have hc' := List.eq_of_mem_replicate hc
  subst hc'
  decide

/-- Witness for claim C9: the single screenshot of a concrete successful
run is addressable through the GET handler via its returned path. -/
theorem c9_screenshot_roundtrip_witness :
    ∃ sid bytes, parseScreenshotRoute "/api/v1/jobs/j9/screenshots/a.png"
        = some ("j9", sid ++ ".png") ∧
      getScreenshotHandler "j9" (sid ++ ".png") (executeSeq wEnvOk "j9" wCfgShot []).kv
        = some bytes :=
  c9_screenshot_roundtrip wEnvOk "j9" wCfgShot [] wUuidGen_inj wUuidGen_noSlash
    (by decide) "/api/v1/jobs/j9/screenshots/a.png"
    (Or.inl ⟨{ screenshots := ["/api/v1/jobs/j9/screenshots/a.png"],
               finalUrl := "https://example.com/" }, by decide, by decide⟩)

/-- Witness for the amended claim C10 on a concrete expect action. -/
theorem c10_null_locator_deref_witness :
    dispatchOp wAExpect = StepOp.expectNullFirst ∧
    runOp wLoopEnv "j10w" 0 wAExpect (initSt [])
      = (initSt [], some wLoopEnv.nullFirstTypeError) :=
  ⟨(c10_null_locator_deref wAExpect "hello" rfl rfl (by decide) rfl rfl rfl rfl).1,
   (c10_null_locator_deref wAExpect "hello" rfl rfl (by decide) rfl rfl rfl rfl).2
     wLoopEnv "j10w" 0 (initSt [])⟩

end Ghost
